import Mathlib

/-!
Shallow embedding of the metric-aggregation engine of the workplace-safety
dashboard (`src/data.py`, `application.py`).

Records are rows of the incident table; numeric cells are rationals.  Since
the Python code computes with IEEE floats via numpy/pandas, cells that can
become non-finite (division) are modelled by the type `FVal`, which is a
rational together with the three non-finite float states.  `np.where(cond,
a, b)` is modelled by `if cond then a else b` on each cell (numpy evaluates
both branches elementwise and selects per cell, which yields the same
selected values).
-/

namespace Vis

attribute [local semireducible] Rat.add Rat.mul Rat.inv Rat.sub

/-- Float-valued cell: a finite rational, or one of the IEEE non-finite
states produced by division (`inf`, `ninf`, `nan`). -/
inductive FVal where
  | fin : ℚ → FVal
  | inf : FVal
  | ninf : FVal
  | nan : FVal
deriving DecidableEq, Repr

namespace FVal

/-- IEEE-style addition on cells. -/
def add : FVal → FVal → FVal
  | fin a, fin b => fin (a + b)
  | fin _, inf => inf
  | fin _, ninf => ninf
  | inf, fin _ => inf
  | ninf, fin _ => ninf
  | inf, inf => inf
  | ninf, ninf => ninf
  | inf, ninf => nan
  | ninf, inf => nan
  | _, _ => nan

/-- IEEE-style subtraction on cells. -/
def sub : FVal → FVal → FVal
  | fin a, fin b => fin (a - b)
  | fin _, inf => ninf
  | fin _, ninf => inf
  | inf, fin _ => inf
  | ninf, fin _ => ninf
  | inf, ninf => inf
  | ninf, inf => ninf
  | inf, inf => nan
  | ninf, ninf => nan
  | _, _ => nan

/-- IEEE-style multiplication on cells. -/
def mul : FVal → FVal → FVal
  | fin a, fin b => fin (a * b)
  | fin a, inf => if a > 0 then inf else if a < 0 then ninf else nan
  | fin a, ninf => if a > 0 then ninf else if a < 0 then inf else nan
  | inf, fin b => if b > 0 then inf else if b < 0 then ninf else nan
  | ninf, fin b => if b > 0 then ninf else if b < 0 then inf else nan
  | inf, inf => inf
  | ninf, ninf => inf
  | inf, ninf => ninf
  | ninf, inf => ninf
  | _, _ => nan

/-- IEEE-style division on cells: a positive finite numerator over a zero
denominator yields `inf` (this is what numpy produces for `x / 0.0`). -/
def div : FVal → FVal → FVal
  | fin a, fin b =>
      if b = 0 then (if a > 0 then inf else if a < 0 then ninf else nan)
      else fin (a / b)
  | fin _, inf => fin 0
  | fin _, ninf => fin 0
  | inf, fin b => if b ≥ 0 then inf else ninf
  | ninf, fin b => if b ≥ 0 then ninf else inf
  | _, _ => nan

/-- The float comparison `x > 0` (False on `nan`). -/
def posCmp : FVal → Bool
  | fin a => a > 0
  | inf => true
  | _ => false

/-- Strict float comparison `a < b` (False whenever `nan` is involved). -/
def ltCmp : FVal → FVal → Bool
  | fin a, fin b => a < b
  | fin _, inf => true
  | ninf, fin _ => true
  | ninf, inf => true
  | _, _ => false

/-- Finiteness of a cell. -/
def isFinite : FVal → Bool
  | fin _ => true
  | _ => false

/-- The cell is a finite value inside `[0, 1]`. -/
def inUnit : FVal → Prop
  | fin q => 0 ≤ q ∧ q ≤ 1
  | _ => False

instance : DecidablePred inUnit := by
  intro v
  cases v <;> simp [inUnit] <;> infer_instance

/-- The cell is finite and non-negative. -/
def finNonneg : FVal → Prop
  | fin q => 0 ≤ q
  | _ => False

instance : DecidablePred finNonneg := by
  intro v
  cases v <;> simp [finNonneg] <;> infer_instance

/-- Sum of a list of cells (float accumulation starting from `0.0`). -/
def sumF (l : List FVal) : FVal := l.foldr add (fin 0)

/-- Mean of a pandas column: `nan` entries are skipped (`skipna=True`);
the mean of an all-`nan` or empty column is `nan`. -/
def meanF (l : List FVal) : FVal :=
  let fs := l.filter (fun v => v ≠ nan)
  match fs with
  | [] => nan
  | _ => div (sumF fs) (fin (fs.length : ℚ))

end FVal

/-- Conversion of a left-merge lookup result: a missing key becomes `NaN`
in the merged pandas column. -/
def toFVal : Option ℚ → FVal
  | some q => FVal.fin q
  | none => FVal.nan

/-- One row of the incident table (`datasets/processed_data.parquet`).
Dates are day ordinals, times of day are minutes since midnight; the
numeric measure columns are rationals. -/
structure Record where
  state_code : String
  company_name : String
  date_of_incident : Int
  type_of_incident : String
  establishment_type : String
  incident_outcome : String
  soc_description_1 : String
  soc_description_2 : String
  naics_description_5 : String
  time_started_work : ℕ
  time_of_incident : ℕ
  death : ℚ
  dafw_num_away : ℚ
  djtr_num_tr : ℚ
  annual_average_employees : ℚ
  total_hours_worked : ℚ
deriving DecidableEq, Repr

/-- Keys of a pandas `groupby`, in order of first appearance, each key
once.  (pandas additionally sorts group keys; no claim below depends on
row order, only on the key set and per-key values.) -/
def uniqAux {α : Type} [DecidableEq α] (seen : List α) : List α → List α
  | [] => []
  | k :: ks => if k ∈ seen then uniqAux seen ks else k :: uniqAux (k :: seen) ks

/-- Distinct elements of a list, first occurrence first. -/
def uniqKeys {α : Type} [DecidableEq α] (l : List α) : List α := uniqAux [] l

/-- `df.drop_duplicates(subset=["state_code", "company_name"])`: keep the
first row of each `(state_code, company_name)` pair. -/
def dropDupAux (seen : List (String × String)) : List Record → List Record
  | [] => []
  | r :: rs =>
      if (r.state_code, r.company_name) ∈ seen then dropDupAux seen rs
      else r :: dropDupAux ((r.state_code, r.company_name) :: seen) rs

/-- Company-level deduplication of the record table. -/
def dropDupCompany (df : List Record) : List Record := dropDupAux [] df

/-- Grouping key used by the metric functions: the state code plus the
optional secondary column (`agg_cols`). -/
def gkey (col : Option (Record → String)) (r : Record) : String × Option String :=
  (r.state_code, col.map (fun f => f r))

/-- Rows of a group. -/
def rowsFor (col : Option (Record → String)) (df : List Record)
    (k : String × Option String) : List Record :=
  df.filter (fun r => gkey col r = k)

/-- Group keys of `df.groupby(agg_cols)`. -/
def groupKeysOf (col : Option (Record → String)) (df : List Record) :
    List (String × Option String) :=
  uniqKeys (df.map (gkey col))

/-- Left-merge lookup of an aggregated company-level sum: the summed value
when the key occurs in the deduplicated table, `none` (pandas `NaN`)
otherwise. -/
def mergeSum (col : Option (Record → String)) (dedup : List Record)
    (v : Record → ℚ) (k : String × Option String) : Option ℚ :=
  match rowsFor col dedup k with
  | [] => none
  | l => some ((l.map v).sum)

/-- `compute_agg_incident_rate`: per group, the injury-level case count
over the company-deduplicated sum of `total_hours_worked`, times `1e5`;
`np.where` guards on a positive denominator (a `NaN` denominator compares
False, selecting `0`). -/
def compute_agg_incident_rate (col : Option (Record → String))
    (df : List Record) : List ((String × Option String) × FVal) :=
  let dedup := dropDupCompany df
  (groupKeysOf col df).map (fun k =>
    let cnt : ℚ := ((rowsFor col df k).length : ℚ)
    let hours := toFVal (mergeSum col dedup (fun r => r.total_hours_worked) k)
    (k, if hours.posCmp then FVal.div (FVal.fin cnt) hours |>.mul (FVal.fin 100000)
        else FVal.fin 0))

/-- `compute_agg_fatality_rate`: per group, summed deaths over the case
count, times `1e4`; guard on a positive case count. -/
def compute_agg_fatality_rate (col : Option (Record → String))
    (df : List Record) : List ((String × Option String) × FVal) :=
  (groupKeysOf col df).map (fun k =>
    let g := rowsFor col df k
    let cnt : ℚ := (g.length : ℚ)
    let deaths : ℚ := (g.map (fun r => r.death)).sum
    (k, if cnt > 0 then FVal.fin (deaths / cnt * 10000) else FVal.fin 0))

/-- `compute_agg_lost_workday_rate`: per group, summed
`dafw_num_away + djtr_num_tr` over the case count; guard on a positive
case count. -/
def compute_agg_lost_workday_rate (col : Option (Record → String))
    (df : List Record) : List ((String × Option String) × FVal) :=
  (groupKeysOf col df).map (fun k =>
    let g := rowsFor col df k
    let cnt : ℚ := (g.length : ℚ)
    let lost : ℚ := (g.map (fun r => r.dafw_num_away)).sum
      + (g.map (fun r => r.djtr_num_tr)).sum
    (k, if cnt > 0 then FVal.fin (lost / cnt) else FVal.fin 0))

/-- `compute_workforce_exposure`: per group, the case count over the
company-deduplicated sum of `annual_average_employees`, times `1e2`; the
`np.where` guard tests `case_number > 0` (the numerator), not the
denominator, so the division by the employee sum is unguarded. -/
def compute_workforce_exposure (col : Option (Record → String))
    (df : List Record) : List ((String × Option String) × FVal) :=
  let dedup := dropDupCompany df
  (groupKeysOf col df).map (fun k =>
    let cnt : ℚ := ((rowsFor col df k).length : ℚ)
    let emp := toFVal (mergeSum col dedup (fun r => r.annual_average_employees) k)
    (k, if cnt > 0 then FVal.div (FVal.fin cnt) emp |>.mul (FVal.fin 100)
        else FVal.fin 0))

/-- One row of the composite score table built by
`compute_agg_safety_score`: the grouping key and the five metric
columns, in the table's column order. -/
structure ScoreRow where
  state : String
  sec : Option String
  incident_rate : FVal
  fatality_rate : FVal
  lost_workday_rate : FVal
  workforce_exposure : FVal
  danger_score : FVal
deriving DecidableEq, Repr

/-- Left-merge lookup of a metric table at a key (`NaN` when absent). -/
def metricAt (t : List ((String × Option String) × FVal))
    (k : String × Option String) : FVal :=
  match t.find? (fun p => p.1 = k) with
  | some p => p.2
  | none => FVal.nan

/-- `compute_agg_safety_score`: left-merge the four metric tables on the
grouping key, starting from the incident-rate table, then add the
fixed-weight composite `danger_score` column. -/
def compute_agg_safety_score (col : Option (Record → String))
    (df : List Record) : List ScoreRow :=
  let ir := compute_agg_incident_rate col df
  let fr := compute_agg_fatality_rate col df
  let lw := compute_agg_lost_workday_rate col df
  let we := compute_workforce_exposure col df
  ir.map (fun p =>
    let k := p.1
    let irv := p.2
    let frv := metricAt fr k
    let lwv := metricAt lw k
    let wev := metricAt we k
    let ds := (((FVal.mul (FVal.fin (238 / 100)) irv).add
      (FVal.mul (FVal.fin (333 / 100)) frv)).add
        (FVal.mul (FVal.fin (37 / 100)) lwv)).add
          (FVal.mul (FVal.fin (14 / 10)) wev)
    { state := k.1, sec := k.2, incident_rate := irv, fatality_rate := frv,
      lost_workday_rate := lwv, workforce_exposure := wev, danger_score := ds })

/-- The five KPI keys of `kpi_name_function_mapping`. -/
inductive Kpi where
  | incident_rate
  | fatality_rate
  | lost_workday_rate
  | workforce_exposure
  | danger_score
deriving DecidableEq, Repr

/-- Dispatch through `kpi_name_function_mapping` (called with the default
`column=None` at both call sites), keeping the key together with the last
column of the returned frame (for the composite that is `danger_score`). -/
def kpiTable (k : Kpi) (df : List Record) :
    List ((String × Option String) × FVal) :=
  match k with
  | .incident_rate => compute_agg_incident_rate none df
  | .fatality_rate => compute_agg_fatality_rate none df
  | .lost_workday_rate => compute_agg_lost_workday_rate none df
  | .workforce_exposure => compute_workforce_exposure none df
  | .danger_score =>
      (compute_agg_safety_score none df).map
        (fun r => ((r.state, r.sec), r.danger_score))

/-- Column names of the five metrics, in the score table's order. -/
def metricNames : List String :=
  ["incident_rate", "fatality_rate", "lost_workday_rate",
   "workforce_exposure", "danger_score"]

/-- Metric column of a score-table row, selected by name. -/
def fieldOf (r : ScoreRow) (m : String) : FVal :=
  if m = "incident_rate" then r.incident_rate
  else if m = "fatality_rate" then r.fatality_rate
  else if m = "lost_workday_rate" then r.lost_workday_rate
  else if m = "workforce_exposure" then r.workforce_exposure
  else if m = "danger_score" then r.danger_score
  else FVal.nan

/-- The module-level `region_safety_score` table: the composite score over
the full base dataset, grouped by state only. -/
def region_safety_score (base : List Record) : List ScoreRow :=
  compute_agg_safety_score none base

/-- Column minimum as pandas computes it: `nan` entries are skipped,
an empty or all-`nan` column gives `nan`. -/
def statMin (l : List FVal) : FVal :=
  let fs := l.filter (fun v => v ≠ FVal.nan)
  match fs with
  | [] => FVal.nan
  | x :: xs => xs.foldl (fun a b => if FVal.ltCmp b a then b else a) x

/-- Column maximum, skipping `nan`. -/
def statMax (l : List FVal) : FVal :=
  let fs := l.filter (fun v => v ≠ FVal.nan)
  match fs with
  | [] => FVal.nan
  | x :: xs => xs.foldl (fun a b => if FVal.ltCmp a b then b else a) x

/-- The module-level `min_metric_values` dictionary. -/
def min_metric_values (base : List Record) (m : String) : FVal :=
  statMin ((region_safety_score base).map (fun r => fieldOf r m))

/-- The module-level `max_metric_values` dictionary. -/
def max_metric_values (base : List Record) (m : String) : FVal :=
  statMax ((region_safety_score base).map (fun r => fieldOf r m))

/-- The scaling expression used (twice, verbatim) by `prepare_radar_data`
and `calculate_mean_values`:
`(v - gmin) / (gmax - gmin) if gmax > gmin else 0`.
A `nan` bound makes the comparison False, selecting `0`. -/
def scaleF (gmin gmax v : FVal) : FVal :=
  if FVal.ltCmp gmin gmax then FVal.div (FVal.sub v gmin) (FVal.sub gmax gmin)
  else FVal.fin 0

/-- `calculate_mean_values`: normalize the metric means with `scaleF`. -/
def calculate_mean_values (gmin gmax : String → FVal) (metrics : List String)
    (means : List FVal) : List FVal :=
  (metrics.zip means).map (fun p => scaleF (gmin p.1) (gmax p.1) p.2)

/-- The score DataFrame as `prepare_radar_data` sees it: the key and five
metric columns (`rows`), plus the columns appended after them by
`prepare_mean_radar_data` (name/constant-value pairs, in column order). -/
structure RTable where
  rows : List ScoreRow
  extras : List (String × FVal)
deriving DecidableEq, Repr

/-- Column assignment `table[name] = v`: overwrite the column in place if
it exists, else append it at the end. -/
def upsert (l : List (String × FVal)) (k : String) (v : FVal) :
    List (String × FVal) :=
  match l with
  | [] => [(k, v)]
  | p :: rest => if p.1 = k then (k, v) :: rest else p :: upsert rest k v

/-- Value of a column of `table.iloc[:, 1:]` that the `.mean()` in
`prepare_mean_radar_data` sees: a metric column's mean, or a previously
appended constant column (the mean of a constant column over a non-empty
table is that constant; over an empty table it is `nan`). -/
def meanOf (t : RTable) (n : String) : FVal :=
  if metricNames.contains n then FVal.meanF (t.rows.map (fun r => fieldOf r n))
  else
    match t.extras.find? (fun p => p.1 = n) with
    | some p => if t.rows.isEmpty then FVal.nan else p.2
    | none => FVal.nan

/-- `prepare_mean_radar_data`: compute the mean of every column after the
first, then assign `mean_{col}` columns onto the SAME DataFrame object
(in-place column assignment). -/
def prepare_mean_radar_data (t : RTable) : RTable :=
  let names := metricNames ++ t.extras.map (fun p => p.1)
  let mv := names.map (fun n => (n, meanOf t n))
  { rows := t.rows,
    extras := mv.foldl (fun ex p => upsert ex ("mean_" ++ p.1) p.2) t.extras }

/-- One row of the radar table. -/
structure RadarRow where
  kpi : String
  value : FVal
  scaled_value : FVal
  mean_value : FVal
  scaled_mean_value : FVal
deriving DecidableEq, Repr

/-- Lookup of the constant `mean_{m}` column. -/
def meanColOf (t : RTable) (m : String) : FVal :=
  match t.extras.find? (fun p => p.1 = "mean_" ++ m) with
  | some p => p.2
  | none => FVal.nan

/-- Assembly of the radar table from the (mean-augmented) score table.
When the focal state has no row, the Python raises: on an empty table the
`mean_` column's `.iloc[0]` raises IndexError, and on a non-empty table
without the state the 0-row `.squeeze()` stays a DataFrame and `.tolist()`
raises AttributeError — both modelled as `.error`. -/
def radarFrom (gmin gmax : String → FVal) (t : RTable) (state : String) :
    Except Unit (List RadarRow) :=
  match t.rows.find? (fun r => r.state == state && r.sec == none) with
  | none => .error ()
  | some row =>
      let means := metricNames.map (fun m => meanColOf t m)
      let smeans := calculate_mean_values gmin gmax metricNames means
      .ok ((metricNames.zip (means.zip smeans)).map (fun q =>
        { kpi := q.1,
          value := fieldOf row q.1,
          scaled_value := scaleF (gmin q.1) (gmax q.1) (fieldOf row q.1),
          mean_value := q.2.1,
          scaled_mean_value := q.2.2 }))

/-- `prepare_radar_data`, with the module-level mutable state passed
explicitly: `g` is the shared `region_safety_score` DataFrame.  On the
fast path (`df is data`) the function aliases `g` and
`prepare_mean_radar_data`'s in-place column assignments land on it, so the
returned state is the mutated table; off the fast path a fresh table is
built and `g` is returned unchanged. -/
def prepare_radar_data_st (gmin gmax : String → FVal) (g : RTable)
    (df : List Record) (isBase : Bool) (state : String) :
    RTable × Except Unit (List RadarRow) :=
  let t := if isBase then g
    else { rows := compute_agg_safety_score none df, extras := [] }
  let t' := prepare_mean_radar_data t
  (if isBase then t' else g, radarFrom gmin gmax t' state)

/-- `prepare_radar_data` as called on a freshly initialized module: the
global score table and min/max dictionaries are built from `base`, and
`isBase` models the `df is data` identity test. -/
def prepare_radar_data (base df : List Record) (isBase : Bool)
    (state : String) : Except Unit (List RadarRow) :=
  (prepare_radar_data_st (min_metric_values base) (max_metric_values base)
    { rows := region_safety_score base, extras := [] } df isBase state).2

/-- Minimum of the `date_of_incident` column (`none` on an empty table,
where pandas gives `NaT` and the equality test below is False). -/
def minDate (df : List Record) : Option Int :=
  match df.map (fun r => r.date_of_incident) with
  | [] => none
  | x :: xs => some (xs.foldl min x)

/-- Maximum of the `date_of_incident` column. -/
def maxDate (df : List Record) : Option Int :=
  match df.map (fun r => r.date_of_incident) with
  | [] => none
  | x :: xs => some (xs.foldl max x)

/-- `filter_data`: identity fast path when the requested range is exactly
the table's min/max date and no incident types are requested; otherwise a
date-range filter followed, when the type list is non-empty, by an
incident-type filter. -/
def filter_data (df : List Record) (s e : Int) (types : List String) :
    List Record :=
  if (minDate df = some s ∧ maxDate df = some e) ∧ types = [] then df
  else
    let fd := df.filter (fun r =>
      decide (s ≤ r.date_of_incident ∧ r.date_of_incident ≤ e))
    if types.isEmpty then fd
    else fd.filter (fun r => types.contains r.type_of_incident)

/-- One row of the state/map table of `prepare_state_data`.  `kpiValue`
stands for the requested KPI's defining column merged in from
`kpi_name_function_mapping[kpi](df)` (the last column of that frame). -/
structure StateRow where
  state : String
  annual_average_employees_median : ℚ
  annual_average_employees_sum : ℚ
  total_hours_worked : ℚ
  dafw_num_away : ℚ
  djtr_num_tr : ℚ
  death : ℚ
  case_number : ℕ
  injury_density : FVal
  kpiValue : FVal
deriving DecidableEq, Repr

/-- Mean of a rational column over a (non-empty) group; 0 on an empty
list, which no group ever is. -/
def qMean (l : List ℚ) : ℚ :=
  match l with
  | [] => 0
  | _ => l.sum / (l.length : ℚ)

/-- `prepare_state_data`: company-level aggregates over the deduplicated
table inner-merged with injury-level aggregates, an `injury_density`
column guarded by `annual_average_employees_median > 0` (while dividing by
the SUM column), then an inner merge with the requested KPI's table. -/
def prepare_state_data (df : List Record) (kpi : Kpi) : List StateRow :=
  let dedup := dropDupCompany df
  let ckeys := uniqKeys (dedup.map (fun r => r.state_code))
  let ikeys := uniqKeys (df.map (fun r => r.state_code))
  let kpiT := kpiTable kpi df
  let keys := (ckeys.filter (fun s => ikeys.contains s)).filter
    (fun s => (kpiT.map (fun p => p.1)).contains (s, none))
  keys.map (fun s =>
    let cg := dedup.filter (fun r => r.state_code == s)
    let ig := df.filter (fun r => r.state_code == s)
    let empMean := qMean (cg.map (fun r => r.annual_average_employees))
    let empSum := (cg.map (fun r => r.annual_average_employees)).sum
    { state := s,
      annual_average_employees_median := empMean,
      annual_average_employees_sum := empSum,
      total_hours_worked := qMean (cg.map (fun r => r.total_hours_worked)),
      dafw_num_away := qMean (ig.map (fun r => r.dafw_num_away)),
      djtr_num_tr := qMean (ig.map (fun r => r.djtr_num_tr)),
      death := qMean (ig.map (fun r => r.death)),
      case_number := ig.length,
      injury_density :=
        if empMean > 0 then
          FVal.div (FVal.fin (ig.length : ℚ)) (FVal.fin empSum)
        else FVal.fin 0,
      kpiValue := metricAt kpiT (s, none) })

/-- One row of the treemap table: the two-level occupation key, the group
row count, and the group-recomputed metric (`none` when the
`.query(state_code == state).iloc[0, -1]` lookup would raise). -/
structure TreemapRow where
  soc1 : String
  soc2 : String
  count : ℕ
  metric : Option FVal
deriving DecidableEq, Repr

/-- `prepare_treemap_data`: restrict to the focal state, drop the
"Insufficient info" / "Not assigned" level-1 categories, group by the
occupation pair, and per group recompute the chosen metric over exactly
that group's rows, filtered back to the focal state's row. -/
def prepare_treemap_data (df : List Record) (state : String) (kpi : Kpi) :
    List TreemapRow :=
  let temp := df.filter (fun r => r.state_code == state)
  let good := temp.filter (fun r =>
    decide (r.soc_description_1 ≠ "Insufficient info"
      ∧ r.soc_description_1 ≠ "Not assigned"))
  let keys := uniqKeys (good.map (fun r =>
    (r.soc_description_1, r.soc_description_2)))
  keys.map (fun k =>
    let g := good.filter (fun r =>
      (r.soc_description_1, r.soc_description_2) == k)
    { soc1 := k.1, soc2 := k.2, count := g.length,
      metric := ((kpiTable kpi g).filter
        (fun p => p.1.1 == state)).head?.map (fun p => p.2) })

/-- Most frequent value of a column, as pandas `x.mode().iloc[0]`
returns it: among the values of maximal frequency, the smallest (pandas
sorts the modes); `none` only on an empty column. -/
def modeOf (l : List String) : Option String :=
  (uniqKeys l).foldl (fun acc v =>
    match acc with
    | none => some v
    | some b =>
        let cv := (l.filter (fun x => x == v)).length
        let cb := (l.filter (fun x => x == b)).length
        if cv > cb ∨ (cv = cb ∧ v < b) then some v else some b) none

/-- Render a time given in minutes as `"%H:%M"` (minute-of-day of the
floor of the mean time). -/
def timeStr (q : ℚ) : String :=
  let m := (Int.toNat ⌊q⌋)
  let pad := fun (n : ℕ) => if n < 10 then "0" ++ toString n else toString n
  pad (m / 60 % 24) ++ ":" ++ pad (m % 60)

/-- One row of the scatter table of `prepare_scatter_plot`. -/
structure ScatterRow where
  naics_description_5 : String
  case_number : ℕ
  time_started_work : ℚ
  time_of_incident : ℚ
  establishment_type : Option String
  time_started_work_str : String
  time_of_incident_str : String
deriving DecidableEq, Repr

/-- `prepare_scatter_plot`: per detailed industry category of the focal
state, the incident count, both mean times of day (kept raw, and formatted
as clock time), and the modal establishment type. -/
def prepare_scatter_plot (df : List Record) (state : String) :
    List ScatterRow :=
  let sd := df.filter (fun r => r.state_code == state)
  let keys := uniqKeys (sd.map (fun r => r.naics_description_5))
  keys.map (fun n =>
    let g := sd.filter (fun r => r.naics_description_5 == n)
    let tsw := qMean (g.map (fun r => (r.time_started_work : ℚ)))
    let ti := qMean (g.map (fun r => (r.time_of_incident : ℚ)))
    { naics_description_5 := n, case_number := g.length,
      time_started_work := tsw, time_of_incident := ti,
      establishment_type := modeOf (g.map (fun r => r.establishment_type)),
      time_started_work_str := timeStr tsw,
      time_of_incident_str := timeStr ti })

/-- The `query` filter of `prepare_stacked_bar_chart`: the focal state,
with the "Not Stated" / "Invalid Entry" establishment types excluded. -/
def sbFiltered (df : List Record) (state : String) : List Record :=
  df.filter (fun r =>
    r.state_code == state
      && decide (r.establishment_type ≠ "Not Stated")
      && decide (r.establishment_type ≠ "Invalid Entry"))

/-- Pivot index: the incident outcomes present after filtering. -/
def sbOutcomes (df : List Record) (state : String) : List String :=
  uniqKeys ((sbFiltered df state).map (fun r => r.incident_outcome))

/-- Pivot columns: the establishment types present after filtering. -/
def sbEstTypes (df : List Record) (state : String) : List String :=
  uniqKeys ((sbFiltered df state).map (fun r => r.establishment_type))

/-- One pivot cell: the incident count of an outcome/establishment-type
pair (0 for an absent pair, from `fillna(0)`). -/
def sbCount (df : List Record) (state o t : String) : ℕ :=
  ((sbFiltered df state).filter (fun r =>
    r.incident_outcome == o && r.establishment_type == t)).length

/-- The row sum `pivot_data.sum(axis=1)` of an outcome row. -/
def sbRowSum (df : List Record) (state o : String) : ℕ :=
  ((sbEstTypes df state).map (fun t => sbCount df state o t)).sum

/-- `prepare_stacked_bar_chart`: one row per incident outcome, each cell
the pivot count divided by the row sum (`pivot_data.div(...)`, an
UNGUARDED float division). -/
def prepare_stacked_bar_chart (df : List Record) (state : String) :
    List (String × List FVal) :=
  (sbOutcomes df state).map (fun o =>
    (o, (sbEstTypes df state).map (fun t =>
      FVal.div (FVal.fin (sbCount df state o t : ℚ))
        (FVal.fin (sbRowSum df state o : ℚ)))))

/-- `dropdown_options_rev` of `src/mappings.py`. -/
def dropdown_options_rev : List (String × String) :=
  [("Incident Rate", "incident_rate"),
   ("Fatality Rate", "fatality_rate"),
   ("Lost Workday Rate", "lost_workday_rate"),
   ("Workforce Exposure", "workforce_exposure"),
   ("Danger Score", "danger_score")]

/-- A click payload as the handlers read it: whether the `"points"` key is
present, and the list of per-point labels it holds (`theta` for the radar
chart, `y` for the bar chart).  A falsy `clickData` (absent or empty dict)
is `none`. -/
structure Payload where
  haspoints : Bool
  points : List String
deriving DecidableEq, Repr

/-- `update_on_radar_click` of `application.py`: `.ok none` models
`no_update`, `.ok (some k)` sets the KPI dropdown, `.error` models the
uncaught `IndexError` of `click_data["points"][0]` on an empty points
list. -/
def update_on_radar_click (click : Option Payload) :
    Except Unit (Option String) :=
  match click with
  | none => .ok none
  | some p =>
      if p.haspoints then
        match p.points with
        | [] => .error ()
        | l :: _ => .ok ((dropdown_options_rev.find? (fun q => q.1 = l)).map
            (fun q => q.2))
      else .ok none

/-- Observable outcome of the bar-chart click handler: `prevented`
(`PreventUpdate`, nothing changes), `rendered o` (figures are rebuilt and
the `bar-selected-data` store is set to `o`), or `failed` (uncaught
`IndexError`). -/
inductive BarClick where
  | prevented
  | rendered (new_outcome : Option String)
  | failed
deriving DecidableEq, Repr

/-- `update_graphs_on_barchart_click` of `application.py`, reduced to its
selection-state effect: a falsy payload is `PreventUpdate`; a payload
without `"points"` still renders, with `new_outcome = None`; an empty
points list raises; otherwise clicking the previously selected outcome
clears it and any other outcome replaces it. -/
def update_graphs_on_barchart_click (click : Option Payload)
    (prev : Option String) : BarClick :=
  match click with
  | none => .prevented
  | some p =>
      if p.haspoints then
        match p.points with
        | [] => .failed
        | y :: _ => if prev = some y then .rendered none
            else .rendered (some y)
      else .rendered none

/-- A blank record, base for the concrete examples below. -/
def r0 : Record :=
  { state_code := "", company_name := "", date_of_incident := 0,
    type_of_incident := "", establishment_type := "", incident_outcome := "",
    soc_description_1 := "", soc_description_2 := "",
    naics_description_5 := "", time_started_work := 0, time_of_incident := 0,
    death := 0, dafw_num_away := 0, djtr_num_tr := 0,
    annual_average_employees := 0, total_hours_worked := 0 }

/-- A one-record table whose company reports zero
`annual_average_employees` — the group then has case count 1 and employee
sum 0. -/
def dfC2 : List Record :=
  [{ r0 with
      state_code := "TX", company_name := "C",
      total_hours_worked := 5 }]

/-- A minimal one-record base dataset. -/
def base1 : List Record :=
  [{ r0 with
      state_code := "AL", company_name := "X",
      annual_average_employees := 1, total_hours_worked := 1 }]

/-- The freshly initialized module-level score table for `base1`. -/
def rt1 : RTable := { rows := region_safety_score base1, extras := [] }

/-- State A, big company with one "Slip" incident. -/
def rA1 : Record :=
  { r0 with
    state_code := "A", company_name := "A1",
    type_of_incident := "Slip", total_hours_worked := 1000,
    annual_average_employees := 10 }

/-- State A, small company with one "Fall" incident. -/
def rA2 : Record :=
  { r0 with
    state_code := "A", company_name := "A2",
    type_of_incident := "Fall", total_hours_worked := 10,
    annual_average_employees := 10 }

/-- State B company row, appearing three times (three incidents). -/
def rB : Record :=
  { r0 with
    state_code := "B", company_name := "B1",
    type_of_incident := "Slip", total_hours_worked := 1000,
    annual_average_employees := 10 }

/-- Base dataset for the scaling example: two states, three companies. -/
def base5 : List Record := [rA1, rA2, rB, rB, rB]

/-- `base5` filtered to incident type "Fall" through `filter_data`: only
state A's small company remains, raising A's incident rate far above the
full dataset's maximum. -/
def filt5 : List Record := filter_data base5 0 0 ["Fall"]

/-- All scaled values of a radar result lie in `[0, 1]` (vacuously true
for an error result). -/
def radarScaledInUnit (res : Except Unit (List RadarRow)) : Bool :=
  match res with
  | .ok rows => rows.all (fun row =>
      decide (FVal.inUnit row.scaled_value)
        && decide (FVal.inUnit row.scaled_mean_value))
  | .error _ => true

/-- Four-record table used by the witnesses: state CA holds company Acme
with two incidents (one fatal) and company Beta with one; state TX holds
company Gamma with one. -/
def w1 : Record :=
  { r0 with
    state_code := "CA", company_name := "Acme",
    date_of_incident := 10, type_of_incident := "Fall",
    establishment_type := "Factory", incident_outcome := "Injury",
    soc_description_1 := "Prod", soc_description_2 := "Line",
    naics_description_5 := "Mfg", dafw_num_away := 2, djtr_num_tr := 1,
    annual_average_employees := 50, total_hours_worked := 2000 }

/-- Second Acme incident (same company-level fields, fatal). -/
def w2 : Record :=
  { r0 with
    state_code := "CA", company_name := "Acme",
    date_of_incident := 20, type_of_incident := "Slip",
    establishment_type := "Office", incident_outcome := "Death",
    soc_description_1 := "Prod", soc_description_2 := "Line",
    naics_description_5 := "Mfg", death := 1,
    annual_average_employees := 50, total_hours_worked := 2000 }

/-- Beta company incident in CA. -/
def w3 : Record :=
  { r0 with
    state_code := "CA", company_name := "Beta",
    date_of_incident := 15, type_of_incident := "Fall",
    establishment_type := "Factory", incident_outcome := "Injury",
    soc_description_1 := "Srv", soc_description_2 := "Desk",
    naics_description_5 := "Retail", annual_average_employees := 25,
    total_hours_worked := 1000 }

/-- Gamma company incident in TX. -/
def w4 : Record :=
  { r0 with
    state_code := "TX", company_name := "Gamma",
    date_of_incident := 12, type_of_incident := "Slip",
    establishment_type := "Factory", incident_outcome := "Injury",
    soc_description_1 := "Prod", soc_description_2 := "Line",
    naics_description_5 := "Mfg", annual_average_employees := 5,
    total_hours_worked := 500 }

/-- The witness table. -/
def dfW : List Record := [w1, w2, w3, w4]

/-! ### Properties of grouping keys and deduplication -/

theorem mem_uniqAux {α : Type} [DecidableEq α] (l : List α) :
    ∀ (seen : List α) (x : α), x ∈ uniqAux seen l ↔ x ∈ l ∧ x ∉ seen := by
  induction l with
  | nil => intro seen x; simp [uniqAux]
  | cons k ks ih =>
      intro seen x
      by_cases hk : k ∈ seen <;>
        simp only [uniqAux, hk, if_true, if_false, List.mem_cons, ih] <;>
        by_cases hxk : x = k <;> subst_eqs <;> tauto

theorem nodup_uniqAux {α : Type} [DecidableEq α] (l : List α) :
    ∀ seen : List α, (uniqAux seen l).Nodup := by
  induction l with
  | nil => intro seen; simp [uniqAux]
  | cons k ks ih =>
      intro seen
      by_cases hk : k ∈ seen
      · simpa [uniqAux, hk] using ih seen
      · simp only [uniqAux, hk, if_false]
        refine List.Nodup.cons ?_ (ih _)
        intro hmem
        exact ((mem_uniqAux ks _ k).mp hmem).2 (List.mem_cons_self _ _)

theorem mem_uniqKeys {α : Type} [DecidableEq α] (l : List α) (x : α) :
    x ∈ uniqKeys l ↔ x ∈ l := by
  simp [uniqKeys, mem_uniqAux]

theorem nodup_uniqKeys {α : Type} [DecidableEq α] (l : List α) :
    (uniqKeys l).Nodup := nodup_uniqAux l []

theorem dropDupAux_sublist (df : List Record) :
    ∀ seen, (dropDupAux seen df).Sublist df := by
  induction df with
  | nil => intro seen; simp [dropDupAux]
  | cons r rs ih =>
      intro seen
      by_cases hr : (r.state_code, r.company_name) ∈ seen
      · simpa [dropDupAux, hr] using (ih seen).trans (List.sublist_cons_self r rs)
      · simpa [dropDupAux, hr] using List.Sublist.cons₂ r (ih _)

theorem mem_dropDupAux_not_seen (df : List Record) :
    ∀ seen r, r ∈ dropDupAux seen df →
      (r.state_code, r.company_name) ∉ seen := by
  induction df with
  | nil => intro seen r h; simp [dropDupAux] at h
  | cons a rs ih =>
      intro seen r h
      by_cases ha : (a.state_code, a.company_name) ∈ seen
      · rw [dropDupAux, if_pos ha] at h
        exact ih seen r h
      · rw [dropDupAux, if_neg ha] at h
        rcases List.mem_cons.mp h with h | h
        · subst h; exact ha
        · intro hc
          exact ih _ r h (List.mem_cons_of_mem _ hc)

theorem dropDupAux_pairwise (df : List Record) :
    ∀ seen, (dropDupAux seen df).Pairwise
      (fun a b => (a.state_code, a.company_name) ≠ (b.state_code, b.company_name)) := by
  induction df with
  | nil => intro seen; simp [dropDupAux]
  | cons a rs ih =>
      intro seen
      by_cases ha : (a.state_code, a.company_name) ∈ seen
      · simpa [dropDupAux, ha] using ih seen
      · rw [dropDupAux, if_neg ha]
        refine List.Pairwise.cons ?_ (ih _)
        intro b hb heq
        exact mem_dropDupAux_not_seen rs _ b hb (heq ▸ List.mem_cons_self _ _)

theorem dropDupAux_covers (df : List Record) :
    ∀ seen r, r ∈ df → (r.state_code, r.company_name) ∉ seen →
      ∃ x ∈ dropDupAux seen df,
        (x.state_code, x.company_name) = (r.state_code, r.company_name) := by
  induction df with
  | nil => intro seen r h; simp at h
  | cons a rs ih =>
      intro seen r hr hns
      by_cases ha : (a.state_code, a.company_name) ∈ seen
      · rw [dropDupAux, if_pos ha]
        rcases List.mem_cons.mp hr with h | h
        · exact absurd (h ▸ ha) hns
        · exact ih seen r h hns
      · rw [dropDupAux, if_neg ha]
        rcases List.mem_cons.mp hr with h | h
        · exact ⟨a, List.mem_cons_self _ _, by rw [h]⟩
        · by_cases hk : (r.state_code, r.company_name) = (a.state_code, a.company_name)
          · exact ⟨a, List.mem_cons_self _ _, hk.symm⟩
          · obtain ⟨x, hx, hxe⟩ := ih ((a.state_code, a.company_name) :: seen) r h
              (by
                intro hc
                rcases List.mem_cons.mp hc with hc | hc
                · exact hk hc
                · exact hns hc)
            exact ⟨x, List.mem_cons_of_mem _ hx, hxe⟩

/-- Deduplication by `(state_code, company_name)` keeps each company of
each state exactly once: the kept rows are rows of the input, no two kept
rows share a company key, and every company key of the input is kept. -/
def dedupOncePerCompany (df : List Record) : Prop :=
  (dropDupCompany df).Sublist df
  ∧ (dropDupCompany df).Pairwise
      (fun a b => (a.state_code, a.company_name) ≠ (b.state_code, b.company_name))
  ∧ ∀ r ∈ df, ∃ x ∈ dropDupCompany df,
      (x.state_code, x.company_name) = (r.state_code, r.company_name)

theorem dropDupCompany_spec (df : List Record) : dedupOncePerCompany df :=
  ⟨dropDupAux_sublist df [], dropDupAux_pairwise df [],
    fun r hr => dropDupAux_covers df [] r hr (by simp)⟩

/-! ### Sums over grouped lists -/

theorem sum_filter_split {β : Type} (l : List β) (p : β → Bool) (v : β → ℚ) :
    ((l.filter p).map v).sum + ((l.filter (fun x => ! p x)).map v).sum
      = (l.map v).sum := by
  induction l with
  | nil => simp
  | cons x xs ih =>
      by_cases hx : p x <;> simp [List.filter_cons, hx] <;> linarith [ih]

theorem partition_sum {β κ : Type} [DecidableEq κ] (key : β → κ) (v : β → ℚ) :
    ∀ (ks : List κ) (l : List β), ks.Nodup → (∀ x ∈ l, key x ∈ ks) →
      (ks.map (fun k => ((l.filter (fun x => key x = k)).map v).sum)).sum
        = (l.map v).sum := by
  intro ks
  induction ks with
  | nil =>
      intro l _ hcov
      have : l = [] := List.eq_nil_iff_forall_not_mem.mpr (fun x hx => by
        simpa using hcov x hx)
      simp [this]
  | cons k ks ih =>
      intro l hnd hcov
      have hnd' := (List.nodup_cons.mp hnd).2
      have hknot := (List.nodup_cons.mp hnd).1
      set l2 := l.filter (fun x => ! decide (key x = k)) with hl2
      have htail : ∀ k' ∈ ks,
          ((l.filter (fun x => key x = k')).map v).sum
            = ((l2.filter (fun x => key x = k')).map v).sum := by
        intro k' hk'
        have hkk : k' ≠ k := fun h => hknot (h ▸ hk')
        have hfe : List.filter (fun x => decide (key x = k')) l
            = List.filter (fun a => decide (key a = k')
                && ! decide (key a = k)) l := by
          apply List.filter_congr
          intro x _
          by_cases hx : key x = k'
          · simp [hx, hkk]
          · simp [hx]
        rw [hl2, List.filter_filter, ← hfe]
      have hcov2 : ∀ x ∈ l2, key x ∈ ks := by
        intro x hx
        rw [hl2, List.mem_filter] at hx
        have hne : key x ≠ k := by simpa using hx.2
        rcases List.mem_cons.mp (hcov x hx.1) with h | h
        · exact absurd h hne
        · exact h
      calc ((k :: ks).map (fun k =>
              ((l.filter (fun x => key x = k)).map v).sum)).sum
          = ((l.filter (fun x => key x = k)).map v).sum
            + (ks.map (fun k' =>
                ((l.filter (fun x => key x = k')).map v).sum)).sum := by
            simp
        _ = ((l.filter (fun x => key x = k)).map v).sum
            + (ks.map (fun k' =>
                ((l2.filter (fun x => key x = k')).map v).sum)).sum := by
            rw [List.map_congr_left htail]
        _ = ((l.filter (fun x => key x = k)).map v).sum + (l2.map v).sum := by
            rw [ih l2 hnd' hcov2]
        _ = (l.map v).sum := by
            rw [hl2]
            exact sum_filter_split l (fun x => decide (key x = k)) v

/-! ### Date column bounds -/

theorem foldl_min_le (xs : List Int) :
    ∀ a : Int, xs.foldl min a ≤ a ∧ ∀ x ∈ xs, xs.foldl min a ≤ x := by
  induction xs with
  | nil => intro a; simp
  | cons x xs ih =>
      intro a
      have h := ih (min a x)
      simp only [List.foldl_cons]
      refine ⟨le_trans h.1 (min_le_left _ _), ?_⟩
      intro y hy
      rcases List.mem_cons.mp hy with hy | hy
      · subst hy; exact le_trans h.1 (min_le_right _ _)
      · exact h.2 y hy

theorem foldl_max_ge (xs : List Int) :
    ∀ a : Int, a ≤ xs.foldl max a ∧ ∀ x ∈ xs, x ≤ xs.foldl max a := by
  induction xs with
  | nil => intro a; simp
  | cons x xs ih =>
      intro a
      have h := ih (max a x)
      simp only [List.foldl_cons]
      refine ⟨le_trans (le_max_left _ _) h.1, ?_⟩
      intro y hy
      rcases List.mem_cons.mp hy with hy | hy
      · subst hy; exact le_trans (le_max_right _ _) h.1
      · exact h.2 y hy

theorem minDate_le (df : List Record) (m : Int) (h : minDate df = some m) :
    ∀ r ∈ df, m ≤ r.date_of_incident := by
  intro r hr
  cases df with
  | nil => simp at hr
  | cons a rs =>
      have hm : m = (rs.map (fun r => r.date_of_incident)).foldl min
          a.date_of_incident := by
        simpa [minDate] using h.symm
      subst hm
      rcases List.mem_cons.mp hr with hr | hr
      · subst hr; exact (foldl_min_le _ _).1
      · exact (foldl_min_le _ _).2 _ (List.mem_map_of_mem _ hr)

theorem maxDate_ge (df : List Record) (m : Int) (h : maxDate df = some m) :
    ∀ r ∈ df, r.date_of_incident ≤ m := by
  intro r hr
  cases df with
  | nil => simp at hr
  | cons a rs =>
      have hm : m = (rs.map (fun r => r.date_of_incident)).foldl max
          a.date_of_incident := by
        simpa [maxDate] using h.symm
      subst hm
      rcases List.mem_cons.mp hr with hr | hr
      · subst hr; exact (foldl_max_ge _ _).1
      · exact (foldl_max_ge _ _).2 _ (List.mem_map_of_mem _ hr)

/-- With state-only grouping, a group's rows are exactly the rows of its
state. -/
theorem rowsFor_none_state (df : List Record) (s : String) :
    rowsFor none df (s, none) = df.filter (fun r => r.state_code == s) := by
  unfold rowsFor
  apply List.filter_congr
  intro r _
  by_cases h : r.state_code = s <;> simp [gkey, h]

/-- The specified incident-rate value of a state: the state's case count
over the sum of `total_hours_worked` across the state's rows after
company deduplication, times `1e5`; `0` when that denominator is not
positive. -/
def incidentRateSpec (df : List Record) (s : String) (v : FVal) : Prop :=
  v = if ((((dropDupCompany df).filter (fun r => r.state_code == s)).map
        (fun r => r.total_hours_worked)).sum) > 0
    then FVal.fin (((df.filter (fun r => r.state_code == s)).length : ℚ)
      / ((((dropDupCompany df).filter (fun r => r.state_code == s)).map
        (fun r => r.total_hours_worked)).sum) * 100000)
    else FVal.fin 0

/-- C1: for state-only grouping, every `incident_rate` value equals the
state's case count divided by the company-deduplicated hours sum times
`1e5` (and `0` when that denominator is not positive), where the
deduplication keeps every `(state_code, company_name)` pair exactly once —
so a company with several incident rows in a state contributes its
`total_hours_worked` once, not once per row. -/
theorem incident_rate_dedup_denominator (df : List Record) (s : String)
    (v : FVal)
    (h : ((s, (none : Option String)), v) ∈ compute_agg_incident_rate none df) :
    incidentRateSpec df s v ∧ dedupOncePerCompany df := by
  refine ⟨?_, dropDupCompany_spec df⟩
  simp only [compute_agg_incident_rate, List.mem_map] at h
  obtain ⟨k, hk, hkeq⟩ := h
  have hks : k = (s, none) := congrArg Prod.fst hkeq
  subst hks
  have hv := congrArg Prod.snd hkeq
  simp only at hv
  unfold incidentRateSpec
  rw [← hv]
  have hrows := rowsFor_none_state df s
  have hdrows := rowsFor_none_state (dropDupCompany df) s
  unfold mergeSum
  rw [hrows, hdrows]
  cases hD : (dropDupCompany df).filter (fun r => r.state_code == s) with
  | nil =>
      simp [toFVal, FVal.posCmp]
  | cons x xs =>
      simp only [toFVal]
      set H : ℚ := ((x :: xs).map (fun r => r.total_hours_worked)).sum with hH
      by_cases hpos : H > 0
      · have hne : H ≠ 0 := ne_of_gt hpos
        simp [FVal.posCmp, hpos, FVal.div, FVal.mul, hne]
      · simp [FVal.posCmp, hpos]

theorem incident_rate_dedup_denominator_witness :
    incidentRateSpec dfW "CA" (FVal.fin 100) :=
  (incident_rate_dedup_denominator dfW "CA" (FVal.fin 100) (by decide)).1

/-- C2: at a one-record table whose company reports zero
`annual_average_employees`, the group has case count 1 and employee sum 0,
and `compute_workforce_exposure` evaluates `1 / 0 * 100` to `+Infinity` —
its `np.where` guard tests the numerator (`case_number > 0`), not the
denominator — instead of the `0` the edge-case policy specifies; the
result is not a finite non-negative value. -/
theorem workforce_exposure_zero_denominator_inf :
    compute_workforce_exposure none dfC2 = [(("TX", none), FVal.inf)]
      ∧ ¬ FVal.finNonneg FVal.inf := by
  exact ⟨by decide, by decide⟩

/-- C4: `filter_data` returns the input table itself when the requested
dates are exactly the table's min/max incident date and no incident types
are requested; in every case the result is an order-preserving sublist of
the input holding exactly the rows inside the date range that pass the
(possibly empty) incident-type filter — an empty result, not an error,
when nothing matches. -/
theorem filter_data_identity_and_membership (df : List Record) (s e : Int)
    (types : List String) :
    ((minDate df = some s ∧ maxDate df = some e) ∧ types = [] →
      filter_data df s e types = df)
    ∧ (filter_data df s e types).Sublist df
    ∧ ∀ r, r ∈ filter_data df s e types ↔
        r ∈ df ∧ s ≤ r.date_of_incident ∧ r.date_of_incident ≤ e
          ∧ (types = [] ∨ r.type_of_incident ∈ types) := by
  unfold filter_data
  by_cases hc : (minDate df = some s ∧ maxDate df = some e) ∧ types = []
  · rw [if_pos hc]
    refine ⟨fun _ => rfl, List.Sublist.refl df, ?_⟩
    intro r
    constructor
    · intro hr
      exact ⟨hr, minDate_le df s hc.1.1 r hr, maxDate_ge df e hc.1.2 r hr,
        Or.inl hc.2⟩
    · exact fun hr => hr.1
  · rw [if_neg hc]
    cases types with
    | nil =>
        simp only [List.isEmpty_nil, if_true]
        refine ⟨fun h => absurd ⟨h.1, rfl⟩ hc, List.filter_sublist df, ?_⟩
        intro r
        simp [List.mem_filter, and_assoc]
    | cons t ts =>
        rw [if_neg (by simp)]
        refine ⟨fun h => absurd ⟨h.1, h.2⟩ hc,
          (List.filter_sublist _).trans (List.filter_sublist df), ?_⟩
        intro r
        simp only [List.mem_filter, List.elem_iff, decide_eq_true_eq,
          List.mem_cons]
        constructor
        · rintro ⟨⟨hr, hd⟩, ht⟩
          exact ⟨hr, hd.1, hd.2, Or.inr ht⟩
        · rintro ⟨hr, h1, h2, ht⟩
          rcases ht with ht | ht
          · exact absurd ht (List.cons_ne_nil t ts)
          · exact ⟨⟨hr, ⟨h1, h2⟩⟩, ht⟩

theorem filter_data_identity_witness : filter_data dfW 10 20 [] = dfW :=
  (filter_data_identity_and_membership dfW 10 20 []).1 ⟨⟨by decide, by decide⟩, rfl⟩

/-- C5 (as stated, refuted): on a date/incident-type-filtered input, a
state's recomputed metric can exceed the global maximum, and the radar
preparer's scaling — built on full-dataset min/max — then produces a
`scaled_value` (and `scaled_mean_value`) above 1. -/
theorem radar_scaled_value_exceeds_unit :
    radarScaledInUnit (prepare_radar_data base5 filt5 false "A") = false := by
  decide

/-- C5 (amended): the radar scaling computes `(v - gmin) / (gmax - gmin)`
from the Global Statistic Set, returns 0 on a degenerate range
(`gmax ≤ gmin`), and yields a value in `[0, 1]` whenever the scaled value
lies between the global min and max (as the unfiltered base table's values
do). -/
theorem scale_unit_interval_of_in_range (a b v : ℚ) :
    (¬ a < b → scaleF (FVal.fin a) (FVal.fin b) (FVal.fin v) = FVal.fin 0)
    ∧ (a < b → scaleF (FVal.fin a) (FVal.fin b) (FVal.fin v)
        = FVal.fin ((v - a) / (b - a)))
    ∧ (a < b → a ≤ v → v ≤ b →
        FVal.inUnit (scaleF (FVal.fin a) (FVal.fin b) (FVal.fin v))) := by
  have hform : a < b → scaleF (FVal.fin a) (FVal.fin b) (FVal.fin v)
      = FVal.fin ((v - a) / (b - a)) := by
    intro h
    have hne : b - a ≠ 0 := sub_ne_zero.mpr (ne_of_gt h)
    simp [scaleF, FVal.ltCmp, h, FVal.sub, FVal.div, hne]
  refine ⟨?_, hform, ?_⟩
  · intro h
    simp [scaleF, FVal.ltCmp, h]
  · intro h h1 h2
    rw [hform h]
    have hba : (0 : ℚ) < b - a := sub_pos.mpr h
    exact ⟨div_nonneg (sub_nonneg.mpr h1) hba.le,
      (div_le_one hba).mpr (sub_le_sub_right h2 a)⟩

theorem scale_unit_interval_witness :
    FVal.inUnit (scaleF (FVal.fin 0) (FVal.fin 2) (FVal.fin 1)) :=
  (scale_unit_interval_of_in_range 0 2 1).2.2 (by norm_num) (by norm_num)
    (by norm_num)

/-- C7: the radar preparer's fast path hands the shared
`region_safety_score` DataFrame itself to `prepare_mean_radar_data`, whose
in-place column assignments append `mean_*` columns to it — the
process-wide score table is mutated, not left unchanged. -/
theorem radar_fast_path_mutates_score_table :
    (prepare_radar_data_st (min_metric_values base1) (max_metric_values base1)
      rt1 base1 true "AL").1 ≠ rt1 := by
  decide

/-- C8 (as stated, refuted): a click payload that has a `points` key
holding an empty list makes both handlers raise `IndexError`
(`click_data["points"][0]` / `barchart_clickData["points"][0]`) instead of
acting as a no-op, and a truthy bar payload lacking the `points` key
re-renders with the `bar-selected-data` store reset to `None` — changing
the current selection — instead of leaving state unchanged. -/
theorem click_handlers_malformed_payload_failures :
    update_on_radar_click (some { haspoints := true, points := [] })
      = .error ()
    ∧ update_graphs_on_barchart_click
        (some { haspoints := true, points := [] }) none = .failed
    ∧ update_graphs_on_barchart_click
        (some { haspoints := false, points := [] }) (some "Death")
        = .rendered none :=
  ⟨rfl, rfl, rfl⟩

/-- C8 (amended): a falsy payload is a no-op for both handlers, a radar
payload without the `points` key is a no-op, an unrecognized KPI label
resolves to no change, and re-clicking the selected bar outcome clears it;
however a payload with an EMPTY points list raises IndexError in both
handlers, and a truthy bar payload lacking `points` re-renders with the
outcome selection cleared rather than leaving state untouched. -/
theorem click_handlers_guarded_cases (prev : Option String) (lbl y : String)
    (rest rest2 : List String)
    (hlbl : dropdown_options_rev.find? (fun q => q.1 = lbl) = none) :
    update_on_radar_click none = .ok none
    ∧ update_on_radar_click (some { haspoints := false, points := rest })
        = .ok none
    ∧ update_on_radar_click (some { haspoints := true, points := lbl :: rest })
        = .ok none
    ∧ update_graphs_on_barchart_click none prev = .prevented
    ∧ update_graphs_on_barchart_click
        (some { haspoints := true, points := y :: rest2 }) (some y)
        = .rendered none
    ∧ update_on_radar_click (some { haspoints := true, points := [] })
        = .error ()
    ∧ update_graphs_on_barchart_click
        (some { haspoints := true, points := [] }) prev = .failed
    ∧ update_graphs_on_barchart_click
        (some { haspoints := false, points := rest2 }) prev
        = .rendered none := by
  refine ⟨rfl, rfl, ?_, rfl, ?_, rfl, rfl, rfl⟩
  · simp [update_on_radar_click, hlbl]
  · simp [update_graphs_on_barchart_click]

theorem click_handlers_guarded_witness :
    update_on_radar_click none = .ok none
    ∧ update_on_radar_click (some { haspoints := false, points := [] })
        = .ok none
    ∧ update_on_radar_click
        (some { haspoints := true, points := "Unknown" :: [] }) = .ok none
    ∧ update_graphs_on_barchart_click none none = .prevented
    ∧ update_graphs_on_barchart_click
        (some { haspoints := true, points := "Death" :: [] }) (some "Death")
        = .rendered none
    ∧ update_on_radar_click (some { haspoints := true, points := [] })
        = .error ()
    ∧ update_graphs_on_barchart_click
        (some { haspoints := true, points := [] }) none = .failed
    ∧ update_graphs_on_barchart_click
        (some { haspoints := false, points := [] }) none = .rendered none :=
  click_handlers_guarded_cases none "Unknown" "Death" [] [] (by decide)

/-- C9 (as stated, refuted): on an empty (filtered) record set the radar
preparer does not return an empty table — its per-state row extraction
(`mean` columns' `.iloc[0]` / the 0-row `.squeeze().tolist()`) raises. -/
theorem radar_preparer_raises_on_empty :
    prepare_radar_data base1 [] false "CA" = .error () := rfl

/-- C9 (amended): on a zero-row input the state/map, treemap, scatter and
stacked-bar preparers return an empty, well-typed table (their column set
is fixed by the row type) without raising; the radar preparer instead
raises on zero rows — its per-state row extraction fails. -/
theorem preparers_on_empty_input (base : List Record) (s : String)
    (kpi : Kpi) :
    prepare_state_data [] kpi = []
    ∧ prepare_treemap_data [] s kpi = []
    ∧ prepare_scatter_plot [] s = []
    ∧ prepare_stacked_bar_chart [] s = []
    ∧ prepare_radar_data base [] false s = .error () :=
  ⟨rfl, rfl, rfl, rfl, rfl⟩

theorem map_id_of_eq {κ : Type} (l : List κ) (f : κ → κ)
    (h : ∀ k ∈ l, f k = k) : l.map f = l := by
  induction l with
  | nil => rfl
  | cons x xs ih =>
      simp only [List.map_cons]
      rw [h x (List.mem_cons_self x xs),
        ih (fun k hk => h k (List.mem_cons_of_mem _ hk))]

/-- Every metric table keeps exactly the group keys of its input. -/
theorem kpiTable_keys (k : Kpi) (g : List Record) :
    (kpiTable k g).map (fun p => p.1) = groupKeysOf none g := by
  cases k <;>
    simp only [kpiTable, compute_agg_incident_rate, compute_agg_fatality_rate,
      compute_agg_lost_workday_rate, compute_workforce_exposure,
      compute_agg_safety_score, List.map_map] <;>
    exact map_id_of_eq _ _ (fun k _ => rfl)

/-- If every row of a table belongs to one state, all its state-only
group keys are that state's key. -/
theorem groupKeys_const (g : List Record) (s : String)
    (hall : ∀ r ∈ g, r.state_code = s) :
    ∀ k ∈ groupKeysOf none g, k = (s, none) := by
  intro k hk
  rw [groupKeysOf, mem_uniqKeys] at hk
  obtain ⟨r, hr, hre⟩ := List.mem_map.mp hk
  rw [← hre]
  simp [gkey, hall r hr]

/-- A non-empty table has at least one group key. -/
theorem groupKeys_ne_nil (g : List Record) (hg : g ≠ []) :
    groupKeysOf none g ≠ [] := by
  cases g with
  | nil => exact absurd rfl hg
  | cons r rs =>
      intro h
      have hmem : gkey none r ∈ groupKeysOf none (r :: rs) :=
        (mem_uniqKeys _ _).mpr (List.mem_map_of_mem _ (List.mem_cons_self r rs))
      rw [h] at hmem
      simp at hmem

/-- C10: every row of `prepare_treemap_data` carries a metric value: each
non-empty occupation group consists only of the focal state's rows, so the
metric table recomputed over the group, filtered back to that state,
always has a first row for `.iloc[0, -1]` to read. -/
theorem treemap_metric_lookup_total (df : List Record) (state : String)
    (kpi : Kpi) :
    ∀ row ∈ prepare_treemap_data df state kpi, row.metric.isSome := by
  intro row hrow
  simp only [prepare_treemap_data, List.mem_map] at hrow
  obtain ⟨k, hk, hrow⟩ := hrow
  subst hrow
  simp only [Option.isSome_map]
  rw [mem_uniqKeys] at hk
  obtain ⟨r, hr, hre⟩ := List.mem_map.mp hk
  set temp := df.filter (fun r => r.state_code == state) with htemp
  set good := temp.filter (fun r =>
    decide (r.soc_description_1 ≠ "Insufficient info"
      ∧ r.soc_description_1 ≠ "Not assigned")) with hgood
  set g := good.filter (fun r =>
    (r.soc_description_1, r.soc_description_2) == k) with hg
  have hrg : r ∈ g := by
    rw [hg, List.mem_filter]
    exact ⟨hr, by simp [hre]⟩
  have hgne : g ≠ [] := List.ne_nil_of_mem hrg
  have hall : ∀ x ∈ g, x.state_code = state := by
    intro x hx
    rw [hg, List.mem_filter] at hx
    rw [hgood, List.mem_filter] at hx
    have := hx.1.1
    rw [htemp, List.mem_filter] at this
    simpa using this.2
  have hTkeys := kpiTable_keys kpi g
  have hTne : kpiTable kpi g ≠ [] := by
    intro h
    have hkeys := groupKeys_ne_nil g hgne
    rw [← hTkeys, h] at hkeys
    exact hkeys rfl
  have hfilter : (kpiTable kpi g).filter (fun p => p.1.1 == state)
      = kpiTable kpi g := by
    apply List.filter_eq_self.mpr
    intro p hp
    have hpk : p.1 ∈ (kpiTable kpi g).map (fun p => p.1) :=
      List.mem_map_of_mem _ hp
    rw [hTkeys] at hpk
    have := groupKeys_const g state hall p.1 hpk
    simp [this]
  rw [hfilter]
  cases hT : kpiTable kpi g with
  | nil => exact absurd hT hTne
  | cons a tl => simp

theorem treemap_metric_lookup_witness :
    (⟨"Prod", "Line", 2, some (FVal.fin 100)⟩ : TreemapRow).metric.isSome :=
  treemap_metric_lookup_total dfW "CA" Kpi.incident_rate _ (by decide)

theorem sumF_map_fin {β : Type} (l : List β) (f : β → ℚ) :
    FVal.sumF (l.map (fun t => FVal.fin (f t))) = FVal.fin ((l.map f).sum) := by
  induction l with
  | nil => rfl
  | cons x xs ih =>
      simp only [List.map_cons, FVal.sumF, List.foldr_cons] at ih ⊢
      rw [ih]
      simp [FVal.add]

theorem sum_map_div {β : Type} (l : List β) (f : β → ℚ) (S : ℚ) :
    (l.map (fun t => f t / S)).sum = (l.map f).sum / S := by
  induction l with
  | nil => simp
  | cons x xs ih => simp [ih, add_div]

theorem nat_le_sum_of_mem (l : List ℕ) (a : ℕ) (h : a ∈ l) : a ≤ l.sum := by
  induction l with
  | nil => simp at h
  | cons x xs ih =>
      rw [List.sum_cons]
      rcases List.mem_cons.mp h with h | h
      · subst h; exact Nat.le_add_right _ _
      · exact le_trans (ih h) (Nat.le_add_left _ _)

/-- C6: the stacked-bar preparer excludes the "Not Stated" and "Invalid
Entry" establishment types, produces one row per present incident outcome
(unique outcomes), and every output row's proportions are finite (never
`NaN`) and sum to exactly 1 — every pivot row sum is positive, so the
zero-sum division case never arises. -/
theorem stacked_bar_rows_normalized (df : List Record) (state : String) :
    ((prepare_stacked_bar_chart df state).map (fun p => p.1)).Nodup
    ∧ (∀ r ∈ sbFiltered df state,
        r.establishment_type ≠ "Not Stated"
          ∧ r.establishment_type ≠ "Invalid Entry")
    ∧ ∀ p ∈ prepare_stacked_bar_chart df state,
        0 < sbRowSum df state p.1
        ∧ FVal.sumF p.2 = FVal.fin 1
        ∧ ∀ v ∈ p.2, v.isFinite := by
  refine ⟨?_, ?_, ?_⟩
  · have hmap : (prepare_stacked_bar_chart df state).map (fun p => p.1)
        = sbOutcomes df state := by
      simp only [prepare_stacked_bar_chart, List.map_map]
      exact map_id_of_eq _ _ (fun o _ => rfl)
    rw [hmap]
    exact nodup_uniqKeys _
  · intro r hr
    rw [sbFiltered, List.mem_filter] at hr
    have h2 := hr.2
    simp only [Bool.and_eq_true, decide_eq_true_eq] at h2
    exact ⟨h2.1.2, h2.2⟩
  · intro p hp
    simp only [prepare_stacked_bar_chart, List.mem_map] at hp
    obtain ⟨o, ho, hpe⟩ := hp
    have hpos : 0 < sbRowSum df state o := by
      rw [sbOutcomes, mem_uniqKeys] at ho
      obtain ⟨r, hr, hre⟩ := List.mem_map.mp ho
      have ht0 : r.establishment_type ∈ sbEstTypes df state :=
        (mem_uniqKeys _ _).mpr (List.mem_map_of_mem _ hr)
      have hcnt : 0 < sbCount df state o r.establishment_type := by
        rw [sbCount]
        apply List.length_pos.mpr
        exact List.ne_nil_of_mem (List.mem_filter.mpr ⟨hr, by simp [hre]⟩)
      have hle : sbCount df state o r.establishment_type
          ≤ sbRowSum df state o := by
        rw [sbRowSum]
        exact nat_le_sum_of_mem _ _ (List.mem_map_of_mem _ ht0)
      exact lt_of_lt_of_le hcnt hle
    have hS : ((sbRowSum df state o : ℚ)) ≠ 0 :=
      Nat.cast_ne_zero.mpr (Nat.pos_iff_ne_zero.mp hpos)
    have hcells : p.2 = (sbEstTypes df state).map
        (fun t => FVal.fin ((sbCount df state o t : ℚ)
          / (sbRowSum df state o : ℚ))) := by
      rw [← hpe]
      apply List.map_congr_left
      intro t _
      simp [FVal.div, hS]
    have hfst : p.1 = o := by rw [← hpe]
    refine ⟨hfst ▸ hpos, ?_, ?_⟩
    · rw [hcells, sumF_map_fin, sum_map_div]
      have hsum : ((sbEstTypes df state).map
          (fun t => (sbCount df state o t : ℚ))).sum
          = (sbRowSum df state o : ℚ) := by
        rw [sbRowSum, Nat.cast_list_sum, List.map_map]
        rfl
      rw [hsum, div_self hS]
    · rw [hcells]
      intro v hv
      obtain ⟨t, _, hte⟩ := List.mem_map.mp hv
      rw [← hte]
      rfl

theorem stacked_bar_rows_witness :
    0 < sbRowSum dfW "CA" "Injury"
    ∧ FVal.sumF [FVal.fin 1, FVal.fin 0] = FVal.fin 1 :=
  ⟨((stacked_bar_rows_normalized dfW "CA").2.2
      ("Injury", [FVal.fin 1, FVal.fin 0]) (by decide)).1,
   ((stacked_bar_rows_normalized dfW "CA").2.2
      ("Injury", [FVal.fin 1, FVal.fin 0]) (by decide)).2.1⟩

/-- The deduplicated company rows of one state, grouped by the secondary
dimension, partition that state's deduplicated rows: summing any
company-level column group-by-group recovers the state total, so no
company's value is counted in two groups. -/
theorem dedup_partition (df : List Record) (f : Record → String)
    (s : String) (v : Record → ℚ) :
    (((groupKeysOf (some f) df).filter (fun k => k.1 == s)).map
      (fun k => ((rowsFor (some f) (dropDupCompany df) k).map v).sum)).sum
      = (((dropDupCompany df).filter (fun r => r.state_code == s)).map v).sum := by
  set D := dropDupCompany df with hD
  set Ds := D.filter (fun r => r.state_code == s) with hDs
  set Ks := (groupKeysOf (some f) df).filter (fun k => k.1 == s) with hKs
  have hnd : Ks.Nodup := List.Nodup.filter _ (nodup_uniqKeys _)
  have hcov : ∀ x ∈ Ds, gkey (some f) x ∈ Ks := by
    intro x hx
    rw [hDs, List.mem_filter] at hx
    have hxdf : x ∈ df := (dropDupAux_sublist df []).subset hx.1
    rw [hKs, List.mem_filter]
    constructor
    · exact (mem_uniqKeys _ _).mpr (List.mem_map_of_mem _ hxdf)
    · simpa [gkey] using hx.2
  have hsummand : ∀ k ∈ Ks,
      ((rowsFor (some f) D k).map v).sum
        = ((Ds.filter (fun x => gkey (some f) x = k)).map v).sum := by
    intro k hk
    rw [hKs, List.mem_filter] at hk
    have hk1 : k.1 = s := by simpa using hk.2
    rw [hDs, List.filter_filter]
    unfold rowsFor
    have hfe : List.filter (fun r => decide (gkey (some f) r = k)) D
        = List.filter (fun a => decide (gkey (some f) a = k)
            && a.state_code == s) D := by
      apply List.filter_congr
      intro x _
      by_cases hx : gkey (some f) x = k
      · have hxs : x.state_code = s := by
          rw [← hk1, ← hx]
          rfl
        simp [hx, hxs]
      · simp [hx]
    rw [hfe]
  rw [List.map_congr_left hsummand]
  exact partition_sum (gkey (some f)) v Ks Ds hnd hcov

/-- C3: with a secondary grouping column, each metric function's output
has pairwise-distinct grouping keys; and because company deduplication
happens before the grouping, summing the deduplicated company-level
columns (hours, employees) over a state's secondary groups recovers the
state total exactly — each deduplicated company row lands in exactly one
`(state, category)` group — and deduplication keeps each company once. -/
theorem secondary_grouping_partitions (df : List Record)
    (f : Record → String) :
    (((compute_agg_incident_rate (some f) df).map (fun p => p.1)).Nodup
      ∧ ((compute_agg_fatality_rate (some f) df).map (fun p => p.1)).Nodup
      ∧ ((compute_agg_lost_workday_rate (some f) df).map
          (fun p => p.1)).Nodup
      ∧ ((compute_workforce_exposure (some f) df).map (fun p => p.1)).Nodup
      ∧ ((compute_agg_safety_score (some f) df).map
          (fun r => (r.state, r.sec))).Nodup)
    ∧ (∀ s : String,
        (((groupKeysOf (some f) df).filter (fun k => k.1 == s)).map
          (fun k => ((rowsFor (some f) (dropDupCompany df) k).map
            (fun r => r.total_hours_worked)).sum)).sum
          = (((dropDupCompany df).filter (fun r => r.state_code == s)).map
            (fun r => r.total_hours_worked)).sum
        ∧ (((groupKeysOf (some f) df).filter (fun k => k.1 == s)).map
          (fun k => ((rowsFor (some f) (dropDupCompany df) k).map
            (fun r => r.annual_average_employees)).sum)).sum
          = (((dropDupCompany df).filter (fun r => r.state_code == s)).map
            (fun r => r.annual_average_employees)).sum)
    ∧ dedupOncePerCompany df := by
  refine ⟨⟨?_, ?_, ?_, ?_, ?_⟩, ?_, dropDupCompany_spec df⟩
  · have h : (compute_agg_incident_rate (some f) df).map (fun p => p.1)
        = groupKeysOf (some f) df := by
      simp only [compute_agg_incident_rate, List.map_map]
      exact map_id_of_eq _ _ (fun k _ => rfl)
    rw [h]; exact nodup_uniqKeys _
  · have h : (compute_agg_fatality_rate (some f) df).map (fun p => p.1)
        = groupKeysOf (some f) df := by
      simp only [compute_agg_fatality_rate, List.map_map]
      exact map_id_of_eq _ _ (fun k _ => rfl)
    rw [h]; exact nodup_uniqKeys _
  · have h : (compute_agg_lost_workday_rate (some f) df).map (fun p => p.1)
        = groupKeysOf (some f) df := by
      simp only [compute_agg_lost_workday_rate, List.map_map]
      exact map_id_of_eq _ _ (fun k _ => rfl)
    rw [h]; exact nodup_uniqKeys _
  · have h : (compute_workforce_exposure (some f) df).map (fun p => p.1)
        = groupKeysOf (some f) df := by
      simp only [compute_workforce_exposure, List.map_map]
      exact map_id_of_eq _ _ (fun k _ => rfl)
    rw [h]; exact nodup_uniqKeys _
  · have h : (compute_agg_safety_score (some f) df).map
        (fun r => (r.state, r.sec)) = groupKeysOf (some f) df := by
      simp only [compute_agg_safety_score, compute_agg_incident_rate,
        List.map_map]
      exact map_id_of_eq _ _ (fun k _ => rfl)
    rw [h]; exact nodup_uniqKeys _
  · intro s
    exact ⟨dedup_partition df f s (fun r => r.total_hours_worked),
      dedup_partition df f s (fun r => r.annual_average_employees)⟩

theorem secondary_grouping_witness :
    (((groupKeysOf (some (fun r => r.establishment_type)) dfW).filter
        (fun k => k.1 == "CA")).map
      (fun k => ((rowsFor (some (fun r => r.establishment_type))
        (dropDupCompany dfW) k).map (fun r => r.total_hours_worked)).sum)).sum
      = (((dropDupCompany dfW).filter (fun r => r.state_code == "CA")).map
        (fun r => r.total_hours_worked)).sum :=
  ((secondary_grouping_partitions dfW
    (fun r => r.establishment_type)).2.1 "CA").1

end Vis
